import Mathlib

/-!
Shallow embedding of the remote-execution and deploy-pipeline subsystem of
the `pulse` deployment orchestrator (src/services/sshService.ts and
src/services/deployService.ts), together with proofs about the claims of
its specification.

Machine strings are modelled with Lean `String`; all string manipulation
used by the code (trim, single-quote escaping, substring search) is
re-implemented on the underlying character lists so that every definition
is executable and kernel-reducible.
-/

namespace Pulse

/- ### String helpers (models of the JS string operations used by the code) -/

/-- `hasPre s pat`: does the character list `s` start with `pat`? -/
def hasPre : List Char → List Char → Bool
  | _, [] => true
  | [], _ :: _ => false
  | a :: as, b :: bs => a = b && hasPre as bs

/-- `subAt s pat`: does `pat` occur as a contiguous run somewhere in `s`? -/
def subAt : List Char → List Char → Bool
  | [], pat => hasPre [] pat
  | a :: as, pat => hasPre (a :: as) pat || subAt as pat

/-- `strContains s pat`: model of JavaScript `s.includes(pat)`. -/
def strContains (s pat : String) : Bool := subAt s.data pat.data

/-- Whitespace characters trimmed by JavaScript `String.prototype.trim`
(restricted to the ones that occur in this system's command output). -/
def isWsp (c : Char) : Bool := c = ' ' || c = '\t' || c = '\n' || c = '\r'

/-- Trim whitespace from both ends of a character list. -/
def trimChars (l : List Char) : List Char :=
  ((l.dropWhile isWsp).reverse.dropWhile isWsp).reverse

/-- Model of JavaScript `s.trim()`. -/
def strTrim (s : String) : String := ⟨trimChars s.data⟩

/-- Model of `command.replace(/'/g, "'\\''")` from
`DeployService.execWithLogs`: every single quote is replaced by the four
characters `'\''`. -/
def escSq : List Char → List Char
  | [] => []
  | c :: cs =>
    if c = '\'' then '\'' :: '\\' :: '\'' :: '\'' :: escSq cs
    else c :: escSq cs

/-- String-level single-quote escaping. -/
def escapeQuotes (s : String) : String := ⟨escSq s.data⟩

/- ### Remote Session Manager (src/services/sshService.ts) -/

/-- Result shape of `SSHService.exec` / `execOnConnection`
(`SSHExecResult` in sshService.ts). -/
structure SSHExecResult where
  stdout : String
  stderr : String
  code : Int
deriving DecidableEq, Repr

/-- Outcome of one attempt of a one-shot `exec` call, i.e. one
`getOrCreateConnection` + `execOnConnection` round:
* `ok stdout stderr code` — the command channel closed; `code` is the exit
  code delivered by the transport, absent (`none`) when the remote process
  terminated without an exit status (e.g. killed by a signal);
* `connFail msg` — `getOrCreateConnection` rejected with the connection
  `error` event (the code wraps it as `"SSH connection failed: " ++ msg`);
* `timeout` — the per-command timer fired: `execOnConnection` rejected with
  `"Command execution timed out"`;
* `execErr msg` — any other execution error (e.g. broken pipe / `conn.exec`
  callback error), rejected with its raw message. -/
inductive AttemptOut where
  | ok (stdout stderr : String) (code : Option Int)
  | connFail (msg : String)
  | timeout
  | execErr (msg : String)
deriving DecidableEq, Repr

/-- The `Except` value produced by a single attempt: mirrors how
`execOnConnection` resolves (`stdout.trim()`, `stderr.trim()`,
`code || 0`) and how the various error paths reject. -/
def attemptResult : AttemptOut → Except String SSHExecResult
  | .ok o e c => .ok { stdout := strTrim o, stderr := strTrim e, code := c.getD 0 }
  | .connFail m => .error ("SSH connection failed: " ++ m)
  | .timeout => .error "Command execution timed out"
  | .execErr m => .error m

/-- Observable outcome of one full `SSHService.exec` call: the final result,
how many attempts (connection acquisition + command execution rounds) were
made, and whether the pooled connection was evicted for a retry. -/
structure ExecCallResult where
  result : Except String SSHExecResult
  attempts : Nat
  evicted : Bool
deriving Repr

/-- Model of `SSHService.exec` (sshService.ts lines 117–149): run the first
attempt; if it fails with exactly the message `"Command execution timed
out"` re-raise without retrying; on any other failure evict the pooled
connection (`closeConnection`) and retry exactly once on a fresh
connection, propagating the retry's error if it also fails. -/
def sshExec (a0 a1 : AttemptOut) : ExecCallResult :=
  match attemptResult a0 with
  | .ok r => { result := .ok r, attempts := 1, evicted := false }
  | .error m =>
    if m = "Command execution timed out" then
      { result := .error m, attempts := 1, evicted := false }
    else
      { result := attemptResult a1, attempts := 2, evicted := true }

/-- Model of the `close` handler of `SSHService.execStream`
(lines 228–232): the exit code delivered to `onClose` is `code || 0`, so a
missing exit code is reported as `0`. -/
def streamCloseCode (code : Option Int) : Int := code.getD 0

/- ### Deploy-gate of `DeployService.deploy` (deployService.ts lines 26–54) -/

/-- `gateLoop still r fuel` models the waiting loop
`while (this.activeDeploys.has(projectId) && retries < 30)`:
`still k` is the value of `activeDeploys.has(projectId)` observed at the
loop-condition evaluation after `k` one-second sleeps.  The function
returns the membership value observed when the loop exits (which is also
the value the subsequent `if` re-reads, since no suspension point lies
between the two reads). -/
def gateLoop (still : Nat → Bool) : Nat → Nat → Bool
  | r, 0 => still r
  | r, fuel + 1 => if still r then gateLoop still (r + 1) fuel else false

/-- Result of the mutual-exclusion gate at the top of
`DeployService.deploy`. -/
structure GateResult where
  cancelRequested : Bool
  result : Except String Unit
deriving Repr

/-- Model of deployService.ts lines 26–54: if another run is active,
request cancellation, wait (up to 30 one-second iterations) for the active
set to drop the unit id, and either throw the could-not-cancel error or
proceed (the caller then immediately executes `activeDeploys.add`, with no
suspension point between the final membership check and the add). -/
def deployGate (hasActive : Bool) (still : Nat → Bool) : GateResult :=
  if hasActive then
    if gateLoop still 0 30 then
      { cancelRequested := true,
        result := .error "Previous deployment could not be cancelled in time. Please try again later." }
    else
      { cancelRequested := true, result := .ok () }
  else
    { cancelRequested := false, result := .ok () }

/- ### Deploy Pipeline Engine (src/services/deployService.ts) -/

/-- The fields of a `Project` (DeployableUnit) consumed by the pipeline.
Unset optional command strings are the empty string (JavaScript falsy),
matching the truthiness tests in the source. -/
structure Project where
  name : String
  repoUrl : String
  branch : String
  deployPath : String
  repoFolder : String
  preDeployCommand : String
  installCommand : String
  buildCommand : String
  startCommand : String
  stopCommand : String
  postDeployCommand : String
  outputPath : String
  buildOutputDir : String
  processManager : String
  envVars : List (String × String)
deriving DecidableEq, Repr

/-- `workDir` computation of `runPipeline`: commands run inside
`repoFolder` when it is set. -/
def workDir (p : Project) : String :=
  if p.repoFolder ≠ "" then p.deployPath ++ "/" ++ p.repoFolder else p.deployPath

/-- Outcome of one remote invocation as observed by the pipeline (either a
pooled `sshService.exec` or a dedicated streaming execution):
`res stdout stderr code` — the channel closed (`code = none` when no
numeric exit status was delivered); `fail msg` — the call rejected with an
error whose message is `msg`. -/
inductive RemoteOut where
  | res (stdout stderr : String) (code : Option Int)
  | fail (msg : String)
deriving DecidableEq, Repr

/-- Environment oracle for one pipeline run: `remote n` is the outcome of
the `n`-th remote invocation issued by the run, and `cancelFrom` is the
invocation index from which `cancel(projectId)` has flagged this unit in
`cancelledDeploys` (`none` = cancellation never requested). -/
structure Orc where
  remote : Nat → RemoteOut
  cancelFrom : Option Nat

/-- Observable state of one pipeline run: the DeploymentRecord's ordered
status writes, error message and finish flag, the in-memory
active/cancellation markers for the unit, the remote command strings
issued, the notification dispatches, the emitted log lines, and the
mirrored project status. -/
structure DeployState where
  step : Nat
  statuses : List String
  errorMessage : Option String
  finishedAt : Bool
  active : Bool
  cancelDeleted : Bool
  commitHash : Option String
  commands : List String
  extNotifs : List String
  inAppNotifs : List String
  logs : List (String × String)
  lastDeployedSet : Bool
  projectStatus : Option String
deriving DecidableEq, Repr

/-- The pipeline monad: state threading plus JavaScript-style exceptions.
An exception carries its message and preserves all state mutations made
before the throw, exactly as the in-memory sets and database writes of the
source survive a thrown `Error`. -/
def DeployM (α : Type) : Type := DeployState → Except String α × DeployState

instance : Monad DeployM where
  pure a := fun st => (.ok a, st)
  bind x f := fun st =>
    match x st with
    | (.ok a, st') => f a st'
    | (.error e, st') => (.error e, st')

/-- `throw new Error(e)`. -/
def DeployM.throwErr (e : String) : DeployM α := fun st => (.error e, st)

/-- `try { x } catch (e) { h e }`. -/
def DeployM.attempt (x : DeployM α) (h : String → DeployM α) : DeployM α := fun st =>
  match x st with
  | (.ok a, st') => (.ok a, st')
  | (.error e, st') => h e st'

/-- Read the current state. -/
def DeployM.getS : DeployM DeployState := fun st => (.ok st, st)

/-- Update the state. -/
def DeployM.modifyS (f : DeployState → DeployState) : DeployM Unit := fun st => (.ok (), f st)

/-- Is the unit currently in `cancelledDeploys`?  True when cancellation
has been flagged at or before the current invocation counter and the
run-end cleanup has not yet removed the marker. -/
def cancelFlag (orc : Orc) (st : DeployState) : Bool :=
  !st.cancelDeleted &&
    (match orc.cancelFrom with
     | none => false
     | some k => decide (k ≤ st.step))

/-- Issue one remote invocation: record the command, advance the
invocation counter, and return the oracle's outcome for it. -/
def takeRemote (orc : Orc) (cmd : String) : DeployM RemoteOut := fun st =>
  (.ok (orc.remote st.step),
   { st with step := st.step + 1, commands := st.commands ++ [cmd] })

/-- The pipeline's view of `sshService.exec`: resolves with the trimmed
output and `code || 0` when the channel closes, throws the call's error
message otherwise (retry behaviour is internal to the session manager and
already folded into the oracle's outcome). -/
def sshExecM (orc : Orc) (cmd : String) : DeployM SSHExecResult := do
  match ← takeRemote orc cmd with
  | .res o e c => pure { stdout := strTrim o, stderr := strTrim e, code := c.getD 0 }
  | .fail m => DeployM.throwErr m

/-- An `sshService.exec` call wrapped in `try { ... } catch { /* ignore */ }`. -/
def sshExecTryM (orc : Orc) (cmd : String) : DeployM Unit := do
  let _ ← takeRemote orc cmd
  pure ()

/-- The pipeline's view of `sshService.execStreamLine`: returns the exit
code delivered to `onClose` (`code || 0`), throws on a transport error. -/
def execStreamLineM (orc : Orc) (cmd : String) : DeployM Int := do
  match ← takeRemote orc cmd with
  | .res _ _ c => pure (c.getD 0)
  | .fail m => DeployM.throwErr m

/-- `emitDeployLog`: synchronous fan-out, never throws (the DB append in
the source swallows its own errors). -/
def emitLog (msg sev : String) : DeployM Unit :=
  DeployM.modifyS fun st => { st with logs := st.logs ++ [(msg, sev)] }

/-- `DeployService.updateStatus`: write the status onto the
DeploymentRecord and mirror it onto the Project. -/
def updateStatusM (s : String) : DeployM Unit :=
  DeployM.modifyS fun st =>
    { st with statuses := st.statuses ++ [s], projectStatus := some s }

/- Remote command strings constructed by the pipeline. -/

/-- Pre-deploy hook command (line 115). -/
def preDeployCmd (p : Project) : String :=
  "cd " ++ workDir p ++ " 2>/dev/null && " ++ p.preDeployCommand ++ " || " ++ p.preDeployCommand

/-- The combined directory-check command (line 136). -/
def dirCheckCmd (dp : String) : String :=
  "mkdir -p \"$(dirname \"" ++ dp ++ "\")\" && if [ -d \"" ++ dp ++
    "/.git\" ]; then echo \"REPO_EXISTS\"; else echo \"REPO_NEW\" && rm -rf \"" ++ dp ++ "\"; fi"

/-- Fetch + checkout + pull issued when the repository exists (line 150). -/
def pullCmd (dp br : String) : String :=
  "cd " ++ dp ++ " && git fetch origin && git checkout " ++ br ++ " && git pull origin " ++ br

/-- Fresh clone issued when the repository is absent (line 163). -/
def cloneCmd (dp br url : String) : String :=
  "rm -rf \"" ++ dp ++ "\" && git clone -b " ++ br ++ " " ++ url ++ " " ++ dp

/-- Commit-hash resolution (line 171). -/
def commitHashCmd (dp : String) : String := "cd " ++ dp ++ " && git rev-parse --short HEAD"

/-- Commit-message resolution (line 175). -/
def commitMsgCmd (dp : String) : String := "cd " ++ dp ++ " && git log -1 --format='%s (%an)'"

/-- `.env` materialization via heredoc (line 216). -/
def envFileCmd (wd content : String) : String :=
  "cd " ++ wd ++ " && cat > .env << 'ENVEOF'\n" ++ content ++ "\nENVEOF"

/-- `envKeys.map(k => k "=" v).join("\n")`. -/
def joinLines : List String → String
  | [] => ""
  | [x] => x
  | x :: y :: xs => x ++ "\n" ++ joinLines (y :: xs)

/-- The `.env` content for a project. -/
def envContent (p : Project) : String :=
  joinLines (p.envVars.map fun kv => kv.1 ++ "=" ++ kv.2)

/-- Removal of the running-PID marker after a streamed stage (line 603). -/
def runningPidCleanupCmd (dp : String) : String :=
  "rm -f \"" ++ dp ++ "/.deploy.running.pid\""

/-- The PID wrapper of `execWithLogs` (lines 571–573): when the deploy
path is set, the stage command is wrapped so that it records its own PID
into `.deploy.running.pid` before running. -/
def wrappedCmd (dp cmd : String) : String :=
  if dp ≠ "" then
    "bash -c 'if [ -d \"" ++ dp ++ "\" ]; then echo $$ > \"" ++ dp ++
      "/.deploy.running.pid\"; fi && " ++ escapeQuotes cmd ++ "'"
  else cmd

/-- Fallback PID-file kill used by the stop-before-start step (line 309)
and by `stop` (line 696). -/
def pidKillCmd (wd : String) : String :=
  "if [ -f \"" ++ wd ++ "/.deploy.pid\" ]; then kill $(cat \"" ++ wd ++
    "/.deploy.pid\") 2>/dev/null; rm -f \"" ++ wd ++ "/.deploy.pid\"; fi"

/-- `pm2 delete` (line 337). -/
def pm2DeleteCmd (name : String) : String := "pm2 delete \"" ++ name ++ "\""

/-- `pm2 start` (line 344). -/
def pm2StartCmd (start name wd : String) : String :=
  "pm2 start \"" ++ start ++ "\" --name \"" ++ name ++ "\" --cwd \"" ++ wd ++ "\""

/-- `pm2 show` (line 352). -/
def pm2ShowCmd (name : String) : String := "pm2 show \"" ++ name ++ "\""

/-- Detached nohup start (line 370). -/
def nohupStartCmd (wd start logFile : String) : String :=
  "cd " ++ wd ++ " && (nohup " ++ start ++ " > " ++ logFile ++
    " 2>&1 < /dev/null & echo $! > \"" ++ wd ++ "/.deploy.pid\")"

/-- Startup log tail (line 384). -/
def tailCmd (logFile : String) : String :=
  "timeout 10s tail -n +1 -f " ++ logFile ++ " || true"

/-- Liveness probe of the detached start (line 397). -/
def aliveCheckCmd (wd : String) : String :=
  "if [ -f \"" ++ wd ++ "/.deploy.pid\" ] && kill -0 $(cat \"" ++ wd ++
    "/.deploy.pid\") 2>/dev/null; then echo \"ALIVE\"; else echo \"DEAD\"; fi"

/-- Output-copy rsync (line 281). -/
def rsyncCmd (srcPath out : String) : String :=
  "mkdir -p \"" ++ out ++ "\" && rsync -a --delete \"" ++ srcPath ++ "/\" \"" ++ out ++ "/\""

/-- `DeployService.execWithLogs` (lines 552–618): check the cancellation
flag, stream the wrapped command, emit an error log on a non-zero exit
code (unless cancelled), clean up the running-PID marker (errors ignored),
re-check cancellation, and fail on a non-zero exit code, recording the
offending (unwrapped) command and the code in the error message. -/
def execWithLogsM (orc : Orc) (p : Project) (cmd : String) : DeployM Unit :=
  DeployM.getS >>= fun st0 =>
  if cancelFlag orc st0 then
    DeployM.throwErr "Deployment cancelled by user"
  else
    execStreamLineM orc (wrappedCmd p.deployPath cmd) >>= fun code =>
    DeployM.getS >>= fun st1 =>
    (if code ≠ 0 && !(cancelFlag orc st1) then
      emitLog ("Process exited with code " ++ toString code) "error"
    else pure ()) >>= fun _ =>
    (if p.deployPath ≠ "" then
      sshExecTryM orc (runningPidCleanupCmd p.deployPath)
    else pure ()) >>= fun _ =>
    DeployM.getS >>= fun st2 =>
    if cancelFlag orc st2 then
      DeployM.throwErr "Deployment cancelled by user"
    else if code ≠ 0 then
      DeployM.throwErr ("Command failed with exit code " ++ toString code ++ ": " ++ cmd)
    else
      pure ()

/- Pipeline stages (runPipeline, lines 103–434). -/

/-- Pre-deploy hook (lines 105–124). -/
def stagePre (orc : Orc) (p : Project) : DeployM Unit := do
  if p.preDeployCommand ≠ "" then
    emitLog "🪝 Running pre-deploy hook..." "info"
    execWithLogsM orc p (preDeployCmd p)
    emitLog "✅ Pre-deploy hook completed" "success"

/-- Clone-or-pull (lines 127–166). -/
def stageClone (orc : Orc) (p : Project) : DeployM Unit := do
  updateStatusM "cloning"
  emitLog ("📡 Checking repository at " ++ p.deployPath ++ "...") "info"
  let dirCheck ← sshExecM orc (dirCheckCmd p.deployPath)
  if strContains dirCheck.stdout "REPO_EXISTS" then
    emitLog ("📥 Repository found! Pulling latest changes from branch " ++ p.branch ++ "...") "info"
    execWithLogsM orc p (pullCmd p.deployPath p.branch)
  else
    emitLog ("📥 Cloning repository to " ++ p.deployPath ++ "...") "info"
    execWithLogsM orc p (cloneCmd p.deployPath p.branch p.repoUrl)

/-- Commit-info resolution (lines 169–195); the author-regex split only
feeds DeploymentRecord metadata fields that this model does not track. -/
def stageCommitInfo (orc : Orc) (p : Project) : DeployM Unit := do
  let commitResult ← sshExecM orc (commitHashCmd p.deployPath)
  let commitMsg ← sshExecM orc (commitMsgCmd p.deployPath)
  DeployM.modifyS fun st => { st with commitHash := some commitResult.stdout }
  emitLog ("✅ Code ready at commit: " ++ commitResult.stdout ++ " — " ++ commitMsg.stdout) "success"

/-- Environment materialization (lines 198–224). -/
def stageEnv (orc : Orc) (p : Project) : DeployM Unit := do
  if p.envVars ≠ [] then
    emitLog "🔧 Setting environment variables..." "info"
    let _ ← sshExecM orc (envFileCmd (workDir p) (envContent p))
    emitLog "✅ Environment variables set" "success"

/-- Install stage (lines 227–247), gated on a non-empty command. -/
def stageInstall (orc : Orc) (p : Project) : DeployM Unit := do
  if p.installCommand ≠ "" then
    updateStatusM "installing"
    emitLog ("📦 Installing dependencies: " ++ p.installCommand) "info"
    execWithLogsM orc p ("cd " ++ workDir p ++ " && " ++ p.installCommand)
    emitLog "✅ Dependencies installed" "success"

/-- Build stage (lines 250–265), gated on a non-empty command. -/
def stageBuild (orc : Orc) (p : Project) : DeployM Unit := do
  if p.buildCommand ≠ "" then
    updateStatusM "building"
    emitLog ("🔨 Building: " ++ p.buildCommand) "info"
    execWithLogsM orc p ("cd " ++ workDir p ++ " && " ++ p.buildCommand)
    emitLog "✅ Build completed" "success"

/-- Output copy (lines 268–290). -/
def stageOutput (orc : Orc) (p : Project) : DeployM Unit := do
  if p.outputPath ≠ "" then
    emitLog ("📂 Copying build output to " ++ p.outputPath ++ "...") "info"
    let srcPath := if p.buildOutputDir ≠ "" then workDir p ++ "/" ++ p.buildOutputDir else workDir p
    execWithLogsM orc p (rsyncCmd srcPath p.outputPath)
    emitLog "✅ Output copied to target path" "success"

/-- Stop-before-start (lines 293–313): the configured stop command and the
PID-file kill share a single try whose errors are swallowed. -/
def stageStopOld (orc : Orc) (p : Project) : DeployM Unit := do
  emitLog "⏹️ Stopping existing process..." "info"
  DeployM.attempt
    ((if p.stopCommand ≠ "" then
        sshExecM orc ("cd " ++ p.deployPath ++ " && " ++ p.stopCommand) >>= fun _ => pure ()
      else pure ()) >>= fun _ =>
      sshExecM orc (pidKillCmd (workDir p)) >>= fun _ => pure ())
    (fun _ => pure ())

/-- Start stage (lines 316–411): supervised (pm2) or detached (nohup)
strategy; verification failure raises a fatal start error.  Per-line log
forwarding during the 10-second tail only appends log lines and is folded
into the single streaming invocation. -/
def stageStart (orc : Orc) (dep : String) (p : Project) : DeployM Unit := do
  if p.startCommand ≠ "" then
    updateStatusM "starting"
    emitLog ("🚀 Starting: " ++ p.startCommand) "info"
    if p.processManager = "pm2" then
      emitLog ("⚡ Using PM2 to manage process: " ++ p.name) "info"
      DeployM.attempt
        (do
          let _ ← sshExecM orc (pm2DeleteCmd p.name)
          pure ())
        (fun _ => pure ())
      let _ ← sshExecM orc (pm2StartCmd p.startCommand p.name (workDir p))
      let _ ← sshExecM orc "pm2 save"
      DeployM.attempt
        (do
          let _ ← sshExecM orc (pm2ShowCmd p.name)
          pure ())
        (fun _ => DeployM.throwErr "Service failed to start (PM2 process not found)")
      emitLog "✅ Service started with PM2!" "success"
    else
      let logFile := "/tmp/deploy-" ++ dep ++ ".log"
      let _ ← sshExecM orc (nohupStartCmd (workDir p) p.startCommand logFile)
      emitLog "📋 Tailing logs for 10s..." "info"
      DeployM.attempt
        (do
          let _ ← execStreamLineM orc (tailCmd logFile)
          pure ())
        (fun _ => pure ())
      DeployM.attempt
        (do
          let pidCheck ← sshExecM orc (aliveCheckCmd (workDir p))
          if strTrim pidCheck.stdout ≠ "ALIVE" then
            DeployM.throwErr "Service failed to start (process died immediately)"
          else
            pure ())
        (fun e => DeployM.throwErr ("Service failed to start: " ++ e))
      emitLog "✅ Service started!" "success"

/-- Post-deploy hook (lines 414–433). -/
def stagePost (orc : Orc) (p : Project) : DeployM Unit := do
  if p.postDeployCommand ≠ "" then
    emitLog "🪝 Running post-deploy hook..." "info"
    execWithLogsM orc p ("cd " ++ workDir p ++ " && " ++ p.postDeployCommand)
    emitLog "✅ Post-deploy hook completed" "success"

/-- `DeployService.sendNotification` (lines 1016–1092).  The commit-detail
lookup runs in its own try/catch (errors logged only).  Modelled from the
spec: the lazily imported `notificationService` (a notification-channel
sender, an excluded collaborator whose source is not part of the core) is
a best-effort dispatcher — the dispatch is recorded and never throws.  The
event kind is `"deployment_success"` exactly when the status argument is
`"success"`, otherwise `"deployment_failed"`. -/
def sendNotificationM (orc : Orc) (p : Project) (status : String) : DeployM Unit := do
  let st ← DeployM.getS
  match st.commitHash with
  | some h => sshExecTryM orc ("cd " ++ p.deployPath ++ " && git log -1 --format='%an|%s' " ++ h)
  | none => pure ()
  DeployM.modifyS fun s =>
    { s with extNotifs := s.extNotifs ++
        [if status = "success" then "deployment_success" else "deployment_failed"] }

/-- `DeployService.createNotification` (lines 521–547): creates the in-app
notification records; every error is caught internally. -/
def createNotificationM (t : String) : DeployM Unit :=
  DeployM.modifyS fun s => { s with inAppNotifs := s.inAppNotifs ++ [t] }

/-- Success epilogue of `runPipeline` (lines 436–465). -/
def successFinalize (orc : Orc) (p : Project) : DeployM Unit := do
  updateStatusM "running"
  DeployM.modifyS fun s => { s with lastDeployedSet := true }
  emitLog "🎉 Deployment completed successfully!" "success"
  DeployM.modifyS fun s => { s with finishedAt := true }
  sendNotificationM orc p "success"
  createNotificationM "deploy_success"
  DeployM.modifyS fun s => { s with active := false }
  DeployM.modifyS fun s => { s with cancelDeleted := true }

/-- Catch block of `runPipeline` (lines 466–515). -/
def failHandler (orc : Orc) (p : Project) (e : String) : DeployM Unit := do
  let st ← DeployM.getS
  let isCancelled := cancelFlag orc st
  if isCancelled then
    emitLog "⛔ Deployment cancelled by user" "warning"
  else
    emitLog ("❌ Deployment failed: " ++ e) "error"
  updateStatusM (if isCancelled then "cancelled" else "failed")
  DeployM.modifyS fun s =>
    { s with errorMessage := some (if isCancelled then "Cancelled by user" else e),
             finishedAt := true }
  DeployM.modifyS fun s => { s with active := false }
  DeployM.modifyS fun s => { s with cancelDeleted := true }
  sendNotificationM orc p "failed"
  if !isCancelled then
    createNotificationM "deploy_failed"

/-- The stage sequence inside the try block of `runPipeline`. -/
def pipelineStages (orc : Orc) (dep : String) (p : Project) : DeployM Unit := do
  stagePre orc p
  stageClone orc p
  stageCommitInfo orc p
  stageEnv orc p
  stageInstall orc p
  stageBuild orc p
  stageOutput orc p
  stageStopOld orc p
  stageStart orc dep p
  stagePost orc p

/-- `DeployService.runPipeline` (lines 89–516): the stage sequence and the
success epilogue inside a try whose catch is `failHandler`. -/
def runPipelineM (orc : Orc) (dep : String) (p : Project) : DeployM Unit :=
  DeployM.attempt
    (do
      pipelineStages orc dep p
      successFinalize orc p)
    (failHandler orc p)

/-- State at pipeline start: the DeploymentRecord was created with status
`"pending"` and the unit id was added to `activeDeploys` by `deploy`. -/
def initState : DeployState :=
  { step := 0, statuses := ["pending"], errorMessage := none, finishedAt := false,
    active := true, cancelDeleted := false, commitHash := none, commands := [],
    extNotifs := [], inAppNotifs := [], logs := [], lastDeployedSet := false,
    projectStatus := none }

/-- The final observable state of one deployment run. -/
def runDeploy (orc : Orc) (dep : String) (p : Project) : DeployState :=
  (runPipelineM orc dep p initState).2

/-- The `Except` outcome of one deployment run (the catch block handles
every pipeline error, so this is always `ok`). -/
def runDeployRes (orc : Orc) (dep : String) (p : Project) : Except String Unit :=
  (runPipelineM orc dep p initState).1

/-- `DeployService.stop` (lines 670–704): given the looked-up project
(`none` reproduces the not-found throw), run the configured stop command
and the pm2 delete/save or PID-file kill inside one error-swallowing try,
then set the unit's status to `stopped`. -/
def stopService (orc : Orc) (po : Option Project) : DeployM Unit := do
  match po with
  | none => DeployM.throwErr "Project not found"
  | some p =>
    DeployM.attempt
      (do
        if p.stopCommand ≠ "" then
          let _ ← sshExecM orc ("cd " ++ workDir p ++ " && " ++ p.stopCommand)
          pure ()
        if p.processManager = "pm2" then
          let _ ← sshExecM orc (pm2DeleteCmd p.name)
          let _ ← sshExecM orc "pm2 save"
          pure ()
        else
          let _ ← sshExecM orc (pidKillCmd (workDir p))
          pure ())
      (fun _ => pure ())
    DeployM.modifyS fun st => { st with projectStatus := some "stopped" }

/- ### Derived notions used by the verification -/

/-- Model of what the shell conditional inside `dirCheckCmd` prints on the
remote host: `REPO_EXISTS` when `deployPath/.git` is a directory,
`REPO_NEW` otherwise (in which case the shell also removes the partial
directory). -/
def dirCheckOutput (gitDirExists : Bool) : String :=
  if gitDirExists then "REPO_EXISTS" else "REPO_NEW"

/-- Following the spec's words: a git clone invocation is *shallow* when
it limits history depth, i.e. passes a `--depth` option. -/
def isShallowClone (cmd : String) : Bool := strContains cmd "--depth"

/-- A pipeline fragment is *tame* for a status list `allowed` when, from
any state, it appends (only) a sublist of `allowed` to the
DeploymentRecord's status writes and leaves the mutual-exclusion markers,
the notification records and the error message untouched — whether it
returns or throws. -/
def Tame {α : Type} (m : DeployM α) (allowed : List String) : Prop :=
  ∀ st : DeployState,
    (∃ d : List String, (m st).2.statuses = st.statuses ++ d ∧ d.Sublist allowed) ∧
    (m st).2.active = st.active ∧
    (m st).2.cancelDeleted = st.cancelDeleted ∧
    (m st).2.extNotifs = st.extNotifs ∧
    (m st).2.inAppNotifs = st.inAppNotifs ∧
    (m st).2.errorMessage = st.errorMessage

/-- The status values the stage sequence of a given project may write, in
pipeline order: `cloning` always, `installing`/`building`/`starting` only
when the corresponding command is configured. -/
def ladderOf (p : Project) : List String :=
  "cloning" ::
    ((if p.installCommand = "" then [] else ["installing"]) ++
      ((if p.buildCommand = "" then [] else ["building"]) ++
        (if p.startCommand = "" then [] else ["starting"])))

/-- Rank of a status value in the pipeline's stage order; all terminal
statuses (`running`, `failed`, `cancelled`) share the top rank, so a
strictly-increasing trace can contain at most one of them and nothing
after it. -/
def stageRank : String → Nat
  | "pending" => 0
  | "cloning" => 1
  | "installing" => 2
  | "building" => 3
  | "starting" => 4
  | _ => 5

/- ### Concrete example inputs used by witnesses and counterexamples -/

/-- A representative project configuration. -/
def pcW : Project :=
  { name := "app", repoUrl := "https://github.com/u/r.git", branch := "main",
    deployPath := "/srv/app", repoFolder := "", preDeployCommand := "",
    installCommand := "npm install", buildCommand := "npm run build",
    startCommand := "npm start", stopCommand := "", postDeployCommand := "",
    outputPath := "", buildOutputDir := "", processManager := "pm2", envVars := [] }

/-- The same project with no install and no build command configured. -/
def pcSkip : Project :=
  { name := "app", repoUrl := "https://github.com/u/r.git", branch := "main",
    deployPath := "/srv/app", repoFolder := "", preDeployCommand := "",
    installCommand := "", buildCommand := "",
    startCommand := "npm start", stopCommand := "", postDeployCommand := "",
    outputPath := "", buildOutputDir := "", processManager := "pm2", envVars := [] }

/-- Every remote invocation succeeds with exit code 0; cancellation is
flagged before the run starts. -/
def orcCancel : Orc := { remote := fun _ => .res "" "" (some 0), cancelFrom := some 0 }

/-- Every remote invocation succeeds with exit code 0; no cancellation. -/
def orcOkW : Orc := { remote := fun _ => .res "" "" (some 0), cancelFrom := none }

/-- The directory check reports a missing repository; everything else
succeeds. -/
def orcNewRepo : Orc := { remote := fun _ => .res "REPO_NEW" "" (some 0), cancelFrom := none }

/-- Every remote invocation closes with exit code 3. -/
def orcExit3 : Orc := { remote := fun _ => .res "" "" (some 3), cancelFrom := none }

/-- Every remote invocation closes without a numeric exit code (remote
process terminated by a signal). -/
def orcSignal : Orc := { remote := fun _ => .res "" "" none, cancelFrom := none }

/- ### Equations of the pipeline monad -/

theorem DeployM.bind_def {α β : Type} (x : DeployM α) (f : α → DeployM β) (st : DeployState) :
    (x >>= f) st = match x st with
      | (.ok a, st') => f a st'
      | (.error e, st') => (.error e, st') := rfl

theorem DeployM.pure_def {α : Type} (a : α) (st : DeployState) :
    (pure a : DeployM α) st = (.ok a, st) := rfl

theorem DeployM.attempt_def {α : Type} (x : DeployM α) (h : String → DeployM α)
    (st : DeployState) :
    DeployM.attempt x h st = match x st with
      | (.ok a, st') => (.ok a, st')
      | (.error e, st') => h e st' := rfl

/- ### The tameness invariant of pipeline fragments -/

theorem tame_of_state_eq {α : Type} {m : DeployM α}
    (h : ∀ st, (m st).2.statuses = st.statuses ∧ (m st).2.active = st.active ∧
      (m st).2.cancelDeleted = st.cancelDeleted ∧ (m st).2.extNotifs = st.extNotifs ∧
      (m st).2.inAppNotifs = st.inAppNotifs ∧ (m st).2.errorMessage = st.errorMessage)
    (l : List String) : Tame m l := by
  intro st
  obtain ⟨h1, h2, h3, h4, h5, h6⟩ := h st
  exact ⟨⟨[], by simp [h1], List.nil_sublist _⟩, h2, h3, h4, h5, h6⟩

theorem tame_pure {α : Type} (a : α) (l : List String) : Tame (pure a : DeployM α) l :=
  tame_of_state_eq (fun _ => ⟨rfl, rfl, rfl, rfl, rfl, rfl⟩) l

theorem tame_throw {α : Type} (e : String) (l : List String) :
    Tame (DeployM.throwErr e : DeployM α) l :=
  tame_of_state_eq (fun _ => ⟨rfl, rfl, rfl, rfl, rfl, rfl⟩) l

theorem tame_getS (l : List String) : Tame DeployM.getS l :=
  tame_of_state_eq (fun _ => ⟨rfl, rfl, rfl, rfl, rfl, rfl⟩) l

theorem tame_takeRemote (orc : Orc) (cmd : String) (l : List String) :
    Tame (takeRemote orc cmd) l :=
  tame_of_state_eq (fun _ => ⟨rfl, rfl, rfl, rfl, rfl, rfl⟩) l

theorem tame_emitLog (msg sev : String) (l : List String) : Tame (emitLog msg sev) l :=
  tame_of_state_eq (fun _ => ⟨rfl, rfl, rfl, rfl, rfl, rfl⟩) l

theorem tame_commitHashSet (h : Option String) (l : List String) :
    Tame (DeployM.modifyS fun st => { st with commitHash := h }) l :=
  tame_of_state_eq (fun _ => ⟨rfl, rfl, rfl, rfl, rfl, rfl⟩) l

theorem tame_updateStatus (s : String) : Tame (updateStatusM s) [s] := by
  intro st
  exact ⟨⟨[s], rfl, List.Sublist.refl _⟩, rfl, rfl, rfl, rfl, rfl⟩

theorem tame_bind {α β : Type} {m : DeployM α} {f : α → DeployM β} {a b : List String}
    (hm : Tame m a) (hf : ∀ x, Tame (f x) b) : Tame (m >>= f) (a ++ b) := by
  intro st
  obtain ⟨⟨d1, hd1, hs1⟩, ha1, hc1, he1, hi1, hm1⟩ := hm st
  rw [DeployM.bind_def]
  rcases hx : m st with ⟨r, st'⟩
  rw [hx] at hd1 ha1 hc1 he1 hi1 hm1
  cases r with
  | error e =>
    exact ⟨⟨d1, hd1, hs1.trans (List.sublist_append_left a b)⟩, ha1, hc1, he1, hi1, hm1⟩
  | ok x =>
    obtain ⟨⟨d2, hd2, hs2⟩, ha2, hc2, he2, hi2, hm2⟩ := hf x st'
    refine ⟨⟨d1 ++ d2, ?_, List.Sublist.append hs1 hs2⟩, ?_, ?_, ?_, ?_, ?_⟩
    · rw [hd2, hd1, List.append_assoc]
    · rw [ha2, ha1]
    · rw [hc2, hc1]
    · rw [he2, he1]
    · rw [hi2, hi1]
    · rw [hm2, hm1]

theorem tame_attempt {α : Type} {m : DeployM α} {h : String → DeployM α} {a b : List String}
    (hm : Tame m a) (hh : ∀ e, Tame (h e) b) : Tame (DeployM.attempt m h) (a ++ b) := by
  intro st
  obtain ⟨⟨d1, hd1, hs1⟩, ha1, hc1, he1, hi1, hm1⟩ := hm st
  rw [DeployM.attempt_def]
  rcases hx : m st with ⟨r, st'⟩
  rw [hx] at hd1 ha1 hc1 he1 hi1 hm1
  cases r with
  | ok x =>
    exact ⟨⟨d1, hd1, hs1.trans (List.sublist_append_left a b)⟩, ha1, hc1, he1, hi1, hm1⟩
  | error e =>
    obtain ⟨⟨d2, hd2, hs2⟩, ha2, hc2, he2, hi2, hm2⟩ := hh e st'
    refine ⟨⟨d1 ++ d2, ?_, List.Sublist.append hs1 hs2⟩, ?_, ?_, ?_, ?_, ?_⟩
    · rw [hd2, hd1, List.append_assoc]
    · rw [ha2, ha1]
    · rw [hc2, hc1]
    · rw [he2, he1]
    · rw [hi2, hi1]
    · rw [hm2, hm1]

theorem tame_ite {α : Type} {c : Prop} [Decidable c] {m1 m2 : DeployM α} {l : List String}
    (h1 : Tame m1 l) (h2 : Tame m2 l) : Tame (if c then m1 else m2) l := by
  by_cases hc : c
  · simpa [hc] using h1
  · simpa [hc] using h2

theorem tame_bind0 {α β : Type} {m : DeployM α} {f : α → DeployM β}
    (hm : Tame m []) (hf : ∀ x, Tame (f x) []) : Tame (m >>= f) [] := by
  simpa using tame_bind hm hf

theorem tame_bind_left {α β : Type} {m : DeployM α} {f : α → DeployM β} {l : List String}
    (hm : Tame m l) (hf : ∀ x, Tame (f x) []) : Tame (m >>= f) l := by
  simpa using tame_bind hm hf

theorem tame_bind_right {α β : Type} {m : DeployM α} {f : α → DeployM β} {l : List String}
    (hm : Tame m []) (hf : ∀ x, Tame (f x) l) : Tame (m >>= f) l := by
  simpa using tame_bind hm hf

theorem tame_attempt0 {α : Type} {m : DeployM α} {h : String → DeployM α}
    (hm : Tame m []) (hh : ∀ e, Tame (h e) []) : Tame (DeployM.attempt m h) [] := by
  simpa using tame_attempt hm hh

theorem tame_sshExecM (orc : Orc) (cmd : String) : Tame (sshExecM orc cmd) [] := by
  unfold sshExecM
  apply tame_bind0 (tame_takeRemote orc cmd [])
  intro r
  cases r with
  | res o e c => exact tame_pure _ _
  | fail m => exact tame_throw _ _

theorem tame_sshExecTryM (orc : Orc) (cmd : String) : Tame (sshExecTryM orc cmd) [] := by
  unfold sshExecTryM
  exact tame_bind0 (tame_takeRemote orc cmd []) (fun _ => tame_pure _ _)

theorem tame_execStreamLineM (orc : Orc) (cmd : String) :
    Tame (execStreamLineM orc cmd) [] := by
  unfold execStreamLineM
  apply tame_bind0 (tame_takeRemote orc cmd [])
  intro r
  cases r with
  | res o e c => exact tame_pure _ _
  | fail m => exact tame_throw _ _

theorem tame_execWithLogsM (orc : Orc) (p : Project) (cmd : String) :
    Tame (execWithLogsM orc p cmd) [] := by
  unfold execWithLogsM
  apply tame_bind0 (tame_getS [])
  intro st0
  apply tame_ite (tame_throw _ _)
  apply tame_bind0 (tame_execStreamLineM orc _)
  intro code
  apply tame_bind0 (tame_getS [])
  intro st1
  apply tame_bind0 (tame_ite (tame_emitLog _ _ _) (tame_pure _ _))
  intro u1
  apply tame_bind0 (tame_ite (tame_sshExecTryM orc _) (tame_pure _ _))
  intro u2
  apply tame_bind0 (tame_getS [])
  intro st2
  exact tame_ite (tame_throw _ _) (tame_ite (tame_throw _ _) (tame_pure _ _))

theorem tame_stagePre (orc : Orc) (p : Project) : Tame (stagePre orc p) [] := by
  unfold stagePre
  apply tame_ite ?_ (tame_pure _ _)
  apply tame_bind0 (tame_emitLog _ _ _)
  intro u1
  apply tame_bind0 (tame_execWithLogsM orc p _)
  intro u2
  exact tame_emitLog _ _ _

theorem tame_stageClone (orc : Orc) (p : Project) :
    Tame (stageClone orc p) ["cloning"] := by
  unfold stageClone
  apply tame_bind_left (tame_updateStatus "cloning")
  intro u1
  apply tame_bind0 (tame_emitLog _ _ _)
  intro u2
  apply tame_bind0 (tame_sshExecM orc _)
  intro dirCheck
  apply tame_ite
  · exact tame_bind0 (tame_emitLog _ _ _) (fun _ => tame_execWithLogsM orc p _)
  · exact tame_bind0 (tame_emitLog _ _ _) (fun _ => tame_execWithLogsM orc p _)

theorem tame_stageCommitInfo (orc : Orc) (p : Project) :
    Tame (stageCommitInfo orc p) [] := by
  unfold stageCommitInfo
  apply tame_bind0 (tame_sshExecM orc _)
  intro r1
  apply tame_bind0 (tame_sshExecM orc _)
  intro r2
  apply tame_bind0 (tame_commitHashSet _ _)
  intro u1
  exact tame_emitLog _ _ _

theorem tame_stageEnv (orc : Orc) (p : Project) : Tame (stageEnv orc p) [] := by
  unfold stageEnv
  apply tame_ite ?_ (tame_pure _ _)
  apply tame_bind0 (tame_emitLog _ _ _)
  intro u1
  apply tame_bind0 (tame_sshExecM orc _)
  intro r
  exact tame_emitLog _ _ _

theorem tame_stageInstall (orc : Orc) (p : Project) :
    Tame (stageInstall orc p) (if p.installCommand = "" then [] else ["installing"]) := by
  by_cases h : p.installCommand = ""
  · simp only [stageInstall, h, ne_eq, not_true_eq_false, if_false, if_true]
    exact tame_pure _ _
  · simp only [stageInstall, h, ne_eq, not_false_eq_true, if_true, if_false]
    apply tame_bind_left (tame_updateStatus "installing")
    intro u1
    apply tame_bind0 (tame_emitLog _ _ _)
    intro u2
    exact tame_bind0 (tame_execWithLogsM orc p _) (fun _ => tame_emitLog _ _ _)

theorem tame_stageBuild (orc : Orc) (p : Project) :
    Tame (stageBuild orc p) (if p.buildCommand = "" then [] else ["building"]) := by
  by_cases h : p.buildCommand = ""
  · simp only [stageBuild, h, ne_eq, not_true_eq_false, if_false, if_true]
    exact tame_pure _ _
  · simp only [stageBuild, h, ne_eq, not_false_eq_true, if_true, if_false]
    apply tame_bind_left (tame_updateStatus "building")
    intro u1
    apply tame_bind0 (tame_emitLog _ _ _)
    intro u2
    exact tame_bind0 (tame_execWithLogsM orc p _) (fun _ => tame_emitLog _ _ _)

theorem tame_stageOutput (orc : Orc) (p : Project) : Tame (stageOutput orc p) [] := by
  unfold stageOutput
  apply tame_ite ?_ (tame_pure _ _)
  apply tame_bind0 (tame_emitLog _ _ _)
  intro u1
  exact tame_bind0 (tame_execWithLogsM orc p _) (fun _ => tame_emitLog _ _ _)

theorem tame_stageStopOld (orc : Orc) (p : Project) : Tame (stageStopOld orc p) [] := by
  unfold stageStopOld
  apply tame_bind0 (tame_emitLog _ _ _)
  intro u1
  apply tame_attempt0 ?_ (fun _ => tame_pure _ _)
  apply tame_bind0
  · apply tame_ite ?_ (tame_pure _ _)
    exact tame_bind0 (tame_sshExecM orc _) (fun _ => tame_pure _ _)
  · intro u2
    exact tame_bind0 (tame_sshExecM orc _) (fun _ => tame_pure _ _)

theorem tame_stageStart (orc : Orc) (dep : String) (p : Project) :
    Tame (stageStart orc dep p) (if p.startCommand = "" then [] else ["starting"]) := by
  by_cases h : p.startCommand = ""
  · simp only [stageStart, h, ne_eq, not_true_eq_false, if_false, if_true]
    exact tame_pure _ _
  · simp only [stageStart, h, ne_eq, not_false_eq_true, if_true, if_false]
    apply tame_bind_left (tame_updateStatus "starting")
    intro u1
    apply tame_bind0 (tame_emitLog _ _ _)
    intro u2
    apply tame_ite
    · apply tame_bind0 (tame_emitLog _ _ _)
      intro u3
      apply tame_bind0
        (tame_attempt0 (tame_bind0 (tame_sshExecM orc _) (fun _ => tame_pure _ _))
          (fun _ => tame_pure _ _))
      intro u4
      apply tame_bind0 (tame_sshExecM orc _)
      intro r1
      apply tame_bind0 (tame_sshExecM orc _)
      intro r2
      apply tame_bind0
        (tame_attempt0 (tame_bind0 (tame_sshExecM orc _) (fun _ => tame_pure _ _))
          (fun _ => tame_throw _ _))
      intro u5
      exact tame_emitLog _ _ _
    · apply tame_bind0 (tame_sshExecM orc _)
      intro r1
      apply tame_bind0 (tame_emitLog _ _ _)
      intro u3
      apply tame_bind0
        (tame_attempt0 (tame_bind0 (tame_execStreamLineM orc _) (fun _ => tame_pure _ _))
          (fun _ => tame_pure _ _))
      intro u4
      apply tame_bind0
      · apply tame_attempt0 ?_ (fun _ => tame_throw _ _)
        apply tame_bind0 (tame_sshExecM orc _)
        intro pidCheck
        exact tame_ite (tame_throw _ _) (tame_pure _ _)
      · intro u5
        exact tame_emitLog _ _ _

theorem tame_stagePost (orc : Orc) (p : Project) : Tame (stagePost orc p) [] := by
  unfold stagePost
  apply tame_ite ?_ (tame_pure _ _)
  apply tame_bind0 (tame_emitLog _ _ _)
  intro u1
  exact tame_bind0 (tame_execWithLogsM orc p _) (fun _ => tame_emitLog _ _ _)

theorem tame_pipelineStages (orc : Orc) (dep : String) (p : Project) :
    Tame (pipelineStages orc dep p) (ladderOf p) := by
  have h :=
    tame_bind (tame_stagePre orc p) (fun _ =>
      tame_bind (tame_stageClone orc p) (fun _ =>
        tame_bind (tame_stageCommitInfo orc p) (fun _ =>
          tame_bind (tame_stageEnv orc p) (fun _ =>
            tame_bind (tame_stageInstall orc p) (fun _ =>
              tame_bind (tame_stageBuild orc p) (fun _ =>
                tame_bind (tame_stageOutput orc p) (fun _ =>
                  tame_bind (tame_stageStopOld orc p) (fun _ =>
                    tame_bind (tame_stageStart orc dep p) (fun _ =>
                      tame_stagePost orc p)))))))))
  simpa [pipelineStages, ladderOf] using h

/- ### Exact behaviour of the two run epilogues -/

theorem sendNotificationM_eq (orc : Orc) (p : Project) (status : String) (st : DeployState) :
    sendNotificationM orc p status st =
      (.ok (), { st with
        step := match st.commitHash with | some _ => st.step + 1 | none => st.step,
        commands := st.commands ++ (match st.commitHash with
          | some h => ["cd " ++ p.deployPath ++ " && git log -1 --format='%an|%s' " ++ h]
          | none => []),
        extNotifs := st.extNotifs ++
          [if status = "success" then "deployment_success" else "deployment_failed"] }) := by
  rcases h : st.commitHash with _ | hsh <;>
    simp [sendNotificationM, DeployM.bind_def, DeployM.getS, h, DeployM.modifyS,
      DeployM.pure_def, sshExecTryM, takeRemote]

theorem successFinalize_spec (orc : Orc) (p : Project) (st : DeployState) :
    (successFinalize orc p st).1 = .ok () ∧
    (successFinalize orc p st).2.statuses = st.statuses ++ ["running"] ∧
    (successFinalize orc p st).2.active = false ∧
    (successFinalize orc p st).2.cancelDeleted = true ∧
    (successFinalize orc p st).2.extNotifs = st.extNotifs ++ ["deployment_success"] ∧
    (successFinalize orc p st).2.inAppNotifs = st.inAppNotifs ++ ["deploy_success"] ∧
    (successFinalize orc p st).2.errorMessage = st.errorMessage := by
  simp [successFinalize, DeployM.bind_def, updateStatusM, DeployM.modifyS, emitLog,
    sendNotificationM_eq, createNotificationM, DeployM.pure_def]

theorem failHandler_spec (orc : Orc) (p : Project) (e : String) (st : DeployState) :
    (failHandler orc p e st).1 = .ok () ∧
    (failHandler orc p e st).2.statuses =
      st.statuses ++ [if cancelFlag orc st then "cancelled" else "failed"] ∧
    (failHandler orc p e st).2.errorMessage =
      some (if cancelFlag orc st then "Cancelled by user" else e) ∧
    (failHandler orc p e st).2.active = false ∧
    (failHandler orc p e st).2.cancelDeleted = true ∧
    (failHandler orc p e st).2.extNotifs = st.extNotifs ++ ["deployment_failed"] ∧
    (failHandler orc p e st).2.inAppNotifs =
      st.inAppNotifs ++ (if cancelFlag orc st then [] else ["deploy_failed"]) := by
  cases h : cancelFlag orc st <;>
    simp [failHandler, DeployM.bind_def, DeployM.getS, h, updateStatusM, DeployM.modifyS,
      emitLog, sendNotificationM_eq, createNotificationM, DeployM.pure_def]

/-- Master case analysis of one full deployment run: the driver itself
never throws, the mutual-exclusion markers are cleared, and the status
trace is `pending`, a sublist of the project's stage ladder, and exactly
one terminal status, with the notification and error-message fields
determined by which terminal was taken. -/
theorem runDeploy_cases (orc : Orc) (dep : String) (p : Project) :
    runDeployRes orc dep p = .ok () ∧
    (runDeploy orc dep p).active = false ∧
    (runDeploy orc dep p).cancelDeleted = true ∧
    ∃ mid, mid.Sublist (ladderOf p) ∧
      (((runDeploy orc dep p).statuses = "pending" :: (mid ++ ["running"]) ∧
        (runDeploy orc dep p).errorMessage = none ∧
        (runDeploy orc dep p).extNotifs = ["deployment_success"] ∧
        (runDeploy orc dep p).inAppNotifs = ["deploy_success"]) ∨
       (∃ (c : Bool) (e : String), (runDeploy orc dep p).statuses =
            "pending" :: (mid ++ [if c then "cancelled" else "failed"]) ∧
          (runDeploy orc dep p).errorMessage =
            some (if c then "Cancelled by user" else e) ∧
          (runDeploy orc dep p).extNotifs = ["deployment_failed"] ∧
          (runDeploy orc dep p).inAppNotifs = (if c then [] else ["deploy_failed"]))) := by
  obtain ⟨⟨d, hd, hds⟩, ha, hc, he, hi, hm⟩ := tame_pipelineStages orc dep p initState
  rcases hx : pipelineStages orc dep p initState with ⟨r, st1⟩
  rw [hx] at hd ha hc he hi hm
  simp only [initState] at hd ha hc he hi hm
  have hrun : ∀ z : Except String Unit × DeployState,
      (DeployM.attempt (pipelineStages orc dep p >>= fun _ => successFinalize orc p)
        (failHandler orc p) initState) = z →
      runDeployRes orc dep p = z.1 ∧ runDeploy orc dep p = z.2 := by
    intro z hz
    constructor
    · simp only [runDeployRes, runPipelineM, hz]
    · simp only [runDeploy, runPipelineM, hz]
  cases r with
  | ok u =>
    have hbody : (pipelineStages orc dep p >>= fun _ => successFinalize orc p) initState =
        successFinalize orc p st1 := by
      rw [DeployM.bind_def, hx]
    obtain ⟨f1, f2, f3, f4, f5, f6, f7⟩ := successFinalize_spec orc p st1
    rcases hfin : successFinalize orc p st1 with ⟨rf, stf⟩
    rw [hfin] at f1 f2 f3 f4 f5 f6 f7
    have hatt : (DeployM.attempt (pipelineStages orc dep p >>= fun _ => successFinalize orc p)
        (failHandler orc p) initState) = (rf, stf) := by
      rw [DeployM.attempt_def, hbody, hfin]
      cases rf with
      | ok a => rfl
      | error e2 => exact absurd f1 (by simp)
    obtain ⟨hres, hst⟩ := hrun (rf, stf) hatt
    refine ⟨by rw [hres]; simpa using f1, by rw [hst]; exact f3, by rw [hst]; exact f4,
      d, hds, Or.inl ⟨?_, ?_, ?_, ?_⟩⟩
    · rw [hst, f2, hd]
      simp
    · rw [hst, f7, hm]
    · rw [hst, f5, he]
      simp
    · rw [hst, f6, hi]
      simp
  | error e =>
    have hbody : (pipelineStages orc dep p >>= fun _ => successFinalize orc p) initState =
        (.error e, st1) := by
      rw [DeployM.bind_def, hx]
    obtain ⟨f1, f2, f3, f4, f5, f6, f7⟩ := failHandler_spec orc p e st1
    rcases hfin : failHandler orc p e st1 with ⟨rf, stf⟩
    rw [hfin] at f1 f2 f3 f4 f5 f6 f7
    have hatt : (DeployM.attempt (pipelineStages orc dep p >>= fun _ => successFinalize orc p)
        (failHandler orc p) initState) = (rf, stf) := by
      rw [DeployM.attempt_def, hbody]
      exact hfin
    obtain ⟨hres, hst⟩ := hrun (rf, stf) hatt
    refine ⟨by rw [hres]; simpa using f1, by rw [hst]; exact f4, by rw [hst]; exact f5,
      d, hds, Or.inr ⟨cancelFlag orc st1, e, ?_, ?_, ?_, ?_⟩⟩
    · rw [hst, f2, hd]
      simp
    · rw [hst, f3]
    · rw [hst, f6, he]
      simp
    · rw [hst, f7, hi]
      simp

/- ### Symbolic execution of `execWithLogs` -/

theorem cancelFlag_none {orc : Orc} (hc : orc.cancelFrom = none) (st : DeployState) :
    cancelFlag orc st = false := by
  simp [cancelFlag, hc]

theorem execWithLogsM_exit_nonzero (orc : Orc) (p : Project) (cmd : String) (st : DeployState)
    (o e : String) (c : Int)
    (hc : orc.cancelFrom = none) (horc : orc.remote st.step = .res o e (some c)) (hne : c ≠ 0) :
    (execWithLogsM orc p cmd st).1 =
      .error ("Command failed with exit code " ++ toString c ++ ": " ++ cmd) := by
  by_cases hdp : p.deployPath = "" <;>
    simp [execWithLogsM, DeployM.bind_def, DeployM.getS, cancelFlag_none hc,
      execStreamLineM, takeRemote, horc, DeployM.pure_def, emitLog, DeployM.modifyS,
      hdp, sshExecTryM, DeployM.throwErr, hne]

theorem execWithLogsM_ok_nocode (orc : Orc) (p : Project) (cmd : String) (st : DeployState)
    (o e : String)
    (hc : orc.cancelFrom = none) (horc : orc.remote st.step = .res o e none) :
    (execWithLogsM orc p cmd st).1 = .ok () := by
  by_cases hdp : p.deployPath = "" <;>
    simp [execWithLogsM, DeployM.bind_def, DeployM.getS, cancelFlag_none hc,
      execStreamLineM, takeRemote, horc, DeployM.pure_def, emitLog, DeployM.modifyS,
      hdp, sshExecTryM, DeployM.throwErr]

theorem execWithLogsM_commands (orc : Orc) (p : Project) (cmd : String) (st : DeployState)
    (hc : orc.cancelFrom = none) :
    ∃ rest, (execWithLogsM orc p cmd st).2.commands =
      st.commands ++ (wrappedCmd p.deployPath cmd :: rest) ∧
      ∀ x ∈ rest, p.deployPath ≠ "" ∧ x = runningPidCleanupCmd p.deployPath := by
  rcases horc : orc.remote st.step with ⟨o, e, c⟩ | m
  · by_cases hdp : p.deployPath = ""
    · refine ⟨[], ?_, by simp⟩
      by_cases hcode : c.getD 0 = 0 <;>
        simp [execWithLogsM, DeployM.bind_def, DeployM.getS, cancelFlag_none hc,
          execStreamLineM, takeRemote, horc, DeployM.pure_def, emitLog, DeployM.modifyS,
          hdp, sshExecTryM, DeployM.throwErr, hcode]
    · refine ⟨[runningPidCleanupCmd p.deployPath], ?_, by simp [hdp]⟩
      by_cases hcode : c.getD 0 = 0 <;>
        simp [execWithLogsM, DeployM.bind_def, DeployM.getS, cancelFlag_none hc,
          execStreamLineM, takeRemote, horc, DeployM.pure_def, emitLog, DeployM.modifyS,
          hdp, sshExecTryM, DeployM.throwErr, hcode]
  · refine ⟨[], ?_, by simp⟩
    simp [execWithLogsM, DeployM.bind_def, DeployM.getS, cancelFlag_none hc,
      execStreamLineM, takeRemote, horc, DeployM.pure_def, emitLog, DeployM.modifyS,
      sshExecTryM, DeployM.throwErr]

/- ### The waiting loop of the deploy gate -/

theorem gateLoop_eq_false (still : Nat → Bool) (r fuel : Nat)
    (h : gateLoop still r fuel = false) :
    ∃ k, r ≤ k ∧ k ≤ r + fuel ∧ still k = false := by
  induction fuel generalizing r with
  | zero =>
    exact ⟨r, Nat.le_refl r, by omega, by simpa [gateLoop] using h⟩
  | succ n ih =>
    by_cases hr : still r = true
    · have h2 : gateLoop still (r + 1) n = false := by simpa [gateLoop, hr] using h
      obtain ⟨k, hk1, hk2, hk3⟩ := ih (r + 1) h2
      exact ⟨k, by omega, by omega, hk3⟩
    · exact ⟨r, Nat.le_refl r, by omega, by simpa using hr⟩

theorem gateLoop_eq_true_of_all (still : Nat → Bool) (r fuel : Nat)
    (h : ∀ k, r ≤ k → k ≤ r + fuel → still k = true) : gateLoop still r fuel = true := by
  induction fuel generalizing r with
  | zero => simpa [gateLoop] using h r (Nat.le_refl r) (by omega)
  | succ n ih =>
    have hr : still r = true := h r (Nat.le_refl r) (by omega)
    simp only [gateLoop, hr, if_true]
    exact ih (r + 1) (fun k h1 h2 => h k (by omega) (by omega))

/- ### Leading-character tools for command-string disequalities -/

theorem ne_of_data_head {s t : String} {c d : Char} {ls lt : List Char}
    (hs : s.data = c :: ls) (ht : t.data = d :: lt) (hne : c ≠ d) : s ≠ t := by
  intro he
  rw [he, ht] at hs
  injection hs with h1 _
  exact hne h1.symm

theorem head_of_append {s : String} {c : Char} (t : String)
    (h : ∃ l, s.data = c :: l) : ∃ l, (s ++ t).data = c :: l := by
  obtain ⟨l, hl⟩ := h
  exact ⟨l ++ t.data, by rw [String.data_append, hl]; rfl⟩

theorem strApp_cancel_right {s t A : String} (h : s ++ A = t ++ A) : s = t := by
  have h2 : (s ++ A).data = (t ++ A).data := by rw [h]
  rw [String.data_append, String.data_append] at h2
  exact String.ext (List.append_cancel_right h2)

theorem strApp_cancel_left {A s t : String} (h : A ++ s = A ++ t) : s = t := by
  have h2 : (A ++ s).data = (A ++ t).data := by rw [h]
  rw [String.data_append, String.data_append] at h2
  exact String.ext (List.append_cancel_left h2)

theorem pullCmd_head (dp br : String) : ∃ l, (pullCmd dp br).data = 'c' :: l := by
  unfold pullCmd
  repeat apply head_of_append
  exact ⟨_, rfl⟩

theorem cloneCmd_head (dp br url : String) : ∃ l, (cloneCmd dp br url).data = 'r' :: l := by
  unfold cloneCmd
  repeat apply head_of_append
  exact ⟨_, rfl⟩

theorem dirCheckCmd_head (dp : String) : ∃ l, (dirCheckCmd dp).data = 'm' :: l := by
  unfold dirCheckCmd
  repeat apply head_of_append
  exact ⟨_, rfl⟩

theorem runningPidCleanupCmd_head (dp : String) :
    ∃ l, (runningPidCleanupCmd dp).data = 'r' :: l := by
  unfold runningPidCleanupCmd
  repeat apply head_of_append
  exact ⟨_, rfl⟩

theorem wrappedCmd_head (dp cmd : String) (hdp : dp ≠ "") :
    ∃ l, (wrappedCmd dp cmd).data = 'b' :: l := by
  unfold wrappedCmd
  rw [if_pos hdp]
  repeat apply head_of_append
  exact ⟨_, rfl⟩

theorem escapeQuotes_head {s : String} {c : Char} {l : List Char} (h : s.data = c :: l)
    (hc : ¬ c = '\'') : ∃ m, (escapeQuotes s).data = c :: m := by
  refine ⟨escSq l, ?_⟩
  show escSq s.data = c :: escSq l
  rw [h]
  simp [escSq, hc]

theorem wrappedCmd_inner_eq {dp a b : String} (hdp : dp ≠ "")
    (h : wrappedCmd dp a = wrappedCmd dp b) : escapeQuotes a = escapeQuotes b := by
  unfold wrappedCmd at h
  rw [if_pos hdp, if_pos hdp] at h
  exact strApp_cancel_left (strApp_cancel_right h)

theorem wrappedPull_ne_wrappedClone (dp br url : String) :
    wrappedCmd dp (pullCmd dp br) ≠ wrappedCmd dp (cloneCmd dp br url) := by
  by_cases hdp : dp = ""
  · obtain ⟨l1, h1⟩ := pullCmd_head dp br
    obtain ⟨l2, h2⟩ := cloneCmd_head dp br url
    simpa [wrappedCmd, hdp] using ne_of_data_head h1 h2 (by decide)
  · intro h
    have hesc := wrappedCmd_inner_eq hdp h
    obtain ⟨l1, h1⟩ := pullCmd_head dp br
    obtain ⟨l2, h2⟩ := cloneCmd_head dp br url
    obtain ⟨m1, hm1⟩ := escapeQuotes_head h1 (by decide)
    obtain ⟨m2, hm2⟩ := escapeQuotes_head h2 (by decide)
    exact ne_of_data_head hm1 hm2 (by decide) hesc

theorem wrappedClone_ne_dirCheck (dp br url : String) :
    wrappedCmd dp (cloneCmd dp br url) ≠ dirCheckCmd dp := by
  obtain ⟨l2, h2⟩ := dirCheckCmd_head dp
  by_cases hdp : dp = ""
  · obtain ⟨l1, h1⟩ := cloneCmd_head dp br url
    simpa [wrappedCmd, hdp] using ne_of_data_head h1 h2 (by decide)
  · obtain ⟨l1, h1⟩ := wrappedCmd_head dp (cloneCmd dp br url) hdp
    exact ne_of_data_head h1 h2 (by decide)

theorem wrappedClone_ne_cleanup (dp br url dp2 : String) (hdp : dp ≠ "") :
    wrappedCmd dp (cloneCmd dp br url) ≠ runningPidCleanupCmd dp2 := by
  obtain ⟨l1, h1⟩ := wrappedCmd_head dp (cloneCmd dp br url) hdp
  obtain ⟨l2, h2⟩ := runningPidCleanupCmd_head dp2
  exact ne_of_data_head h1 h2 (by decide)

/- ### Status ladder ordering -/

theorem ladderOf_sublist (p : Project) :
    (ladderOf p).Sublist ["cloning", "installing", "building", "starting"] := by
  unfold ladderOf
  split_ifs <;> decide

theorem chain_of_trace {mid : List String} {t : String}
    (hmid : mid.Sublist ["cloning", "installing", "building", "starting"])
    (ht : t = "running" ∨ t = "failed" ∨ t = "cancelled") :
    List.Chain' (fun a b => stageRank a < stageRank b) ("pending" :: (mid ++ [t])) := by
  haveI : IsTrans String (fun a b => stageRank a < stageRank b) :=
    ⟨fun a b c h1 h2 => Nat.lt_trans h1 h2⟩
  have hsub : ("pending" :: (mid ++ [t])).Sublist
      ("pending" :: (["cloning", "installing", "building", "starting"] ++ [t])) :=
    List.Sublist.cons₂ _ (List.Sublist.append hmid (List.Sublist.refl [t]))
  have hbig : List.Chain' (fun a b => stageRank a < stageRank b)
      ("pending" :: (["cloning", "installing", "building", "starting"] ++ [t])) := by
    rcases ht with h | h | h <;> subst h <;>
      simp [List.chain'_cons, List.chain'_singleton, stageRank]
  exact hbig.sublist hsub

/- ### `stop` epilogue -/

theorem attempt_swallow (m : DeployM Unit) (st : DeployState) :
    ∃ st', DeployM.attempt m (fun _ => pure ()) st = (.ok (), st') := by
  rcases h : m st with ⟨r, st'⟩
  cases r with
  | ok a => exact ⟨st', by rw [DeployM.attempt_def, h]⟩
  | error e => exact ⟨st', by rw [DeployM.attempt_def, h]; rfl⟩

theorem stopService_spec (orc : Orc) (p : Project) (st : DeployState) :
    (stopService orc (some p) st).1 = .ok () ∧
    (stopService orc (some p) st).2.projectStatus = some "stopped" := by
  obtain ⟨st', h'⟩ := attempt_swallow _ st
  have hrun : stopService orc (some p) st =
      (.ok (), { st' with projectStatus := some "stopped" }) := by
    show (DeployM.attempt _ _ >>= fun _ => DeployM.modifyS _) st = _
    rw [DeployM.bind_def, h']
    rfl
  rw [hrun]
  exact ⟨rfl, rfl⟩

theorem gateLoop_eq_true_forall (still : Nat → Bool) (r fuel : Nat)
    (h : gateLoop still r fuel = true) :
    ∀ k, r ≤ k → k ≤ r + fuel → still k = true := by
  induction fuel generalizing r with
  | zero =>
    intro k h1 h2
    have hk : k = r := by omega
    subst hk
    simpa [gateLoop] using h
  | succ n ih =>
    intro k h1 h2
    by_cases hr : still r = true
    · have h2' : gateLoop still (r + 1) n = true := by simpa [gateLoop, hr] using h
      by_cases hk : k = r
      · subst hk; exact hr
      · exact ih (r + 1) h2' k (by omega) (by omega)
    · simp [gateLoop, hr] at h

theorem connFailMsg_ne_timeout (m : String) :
    "SSH connection failed: " ++ m ≠ "Command execution timed out" := by
  intro h
  have h2 : ("SSH connection failed: " ++ m).data =
      ("Command execution timed out" : String).data := by rw [h]
  rw [String.data_append] at h2
  have e1 : ("SSH connection failed: " : String).data =
      'S' :: ("SH connection failed: " : String).data := rfl
  have e2 : ("Command execution timed out" : String).data =
      'C' :: ("ommand execution timed out" : String).data := rfl
  rw [e1, e2, List.cons_append] at h2
  injection h2 with hc _
  exact absurd hc (by decide)

theorem stageClone_commands (orc : Orc) (p : Project) (st : DeployState) (g : Bool)
    (hc : orc.cancelFrom = none)
    (horc : orc.remote st.step = .res (dirCheckOutput g) "" (some 0)) :
    ∃ rest, (stageClone orc p st).2.commands =
      st.commands ++ (dirCheckCmd p.deployPath ::
        wrappedCmd p.deployPath
          (if g then pullCmd p.deployPath p.branch
           else cloneCmd p.deployPath p.branch p.repoUrl) :: rest) ∧
      ∀ x ∈ rest, p.deployPath ≠ "" ∧ x = runningPidCleanupCmd p.deployPath := by
  cases g with
  | true =>
    have e1 : strTrim "REPO_EXISTS" = "REPO_EXISTS" := by decide
    have e2 : strContains "REPO_EXISTS" "REPO_EXISTS" = true := by decide
    have key : stageClone orc p st =
        execWithLogsM orc p (pullCmd p.deployPath p.branch)
          { st with
            statuses := st.statuses ++ ["cloning"],
            projectStatus := some "cloning",
            logs := st.logs ++
              [("📡 Checking repository at " ++ p.deployPath ++ "...", "info"),
               ("📥 Repository found! Pulling latest changes from branch " ++ p.branch ++ "...",
                "info")],
            step := st.step + 1,
            commands := st.commands ++ [dirCheckCmd p.deployPath] } := by
      simp [stageClone, DeployM.bind_def, updateStatusM, DeployM.modifyS, emitLog,
        sshExecM, takeRemote, horc, DeployM.pure_def, dirCheckOutput, e1, e2]
    obtain ⟨rest, hr1, hr2⟩ := execWithLogsM_commands orc p (pullCmd p.deployPath p.branch) _ hc
    refine ⟨rest, ?_, hr2⟩
    rw [key, hr1]
    simp
  | false =>
    have e1 : strTrim "REPO_NEW" = "REPO_NEW" := by decide
    have e2 : strContains "REPO_NEW" "REPO_EXISTS" = false := by decide
    have key : stageClone orc p st =
        execWithLogsM orc p (cloneCmd p.deployPath p.branch p.repoUrl)
          { st with
            statuses := st.statuses ++ ["cloning"],
            projectStatus := some "cloning",
            logs := st.logs ++
              [("📡 Checking repository at " ++ p.deployPath ++ "...", "info"),
               ("📥 Cloning repository to " ++ p.deployPath ++ "...", "info")],
            step := st.step + 1,
            commands := st.commands ++ [dirCheckCmd p.deployPath] } := by
      simp [stageClone, DeployM.bind_def, updateStatusM, DeployM.modifyS, emitLog,
        sshExecM, takeRemote, horc, DeployM.pure_def, dirCheckOutput, e1, e2]
    obtain ⟨rest, hr1, hr2⟩ :=
      execWithLogsM_commands orc p (cloneCmd p.deployPath p.branch p.repoUrl) _ hc
    refine ⟨rest, ?_, hr2⟩
    rw [key, hr1]
    simp

theorem runDeploy_statuses_mem (orc : Orc) (dep : String) (p : Project) :
    ∀ s ∈ (runDeploy orc dep p).statuses,
      s = "pending" ∨ s ∈ ladderOf p ∨ s = "running" ∨ s = "failed" ∨ s = "cancelled" := by
  obtain ⟨-, -, -, mid, hmid, hcase⟩ := runDeploy_cases orc dep p
  intro s hs
  rcases hcase with ⟨h1, -, -, -⟩ | ⟨c, e, h1, -, -, -⟩
  · rw [h1] at hs
    simp only [List.mem_cons, List.mem_append, List.mem_singleton, List.not_mem_nil,
      or_false] at hs
    rcases hs with h | h | h
    · exact Or.inl h
    · exact Or.inr (Or.inl (hmid.subset h))
    · exact Or.inr (Or.inr (Or.inl h))
  · rw [h1] at hs
    simp only [List.mem_cons, List.mem_append, List.mem_singleton, List.not_mem_nil,
      or_false] at hs
    rcases hs with h | h | h
    · exact Or.inl h
    · exact Or.inr (Or.inl (hmid.subset h))
    · cases c with
      | true =>
        simp at h
        exact Or.inr (Or.inr (Or.inr (Or.inr h)))
      | false =>
        simp at h
        exact Or.inr (Or.inr (Or.inr (Or.inl h)))

/- ### The claims -/

/-- Claim C1: for every DeployableUnit at most one pipeline execution
holds the active slot at any instant: when `deploy(unitId)` finds a run
active it requests cancellation, polls up to 30 one-second iterations for
the active set to drop the unit id, and either acquires only at an instant
at which the slot was observed free, or raises exactly the
could-not-cancel-in-time error (which happens precisely when the unit
stayed in the active set through every poll) — so the two runs never both
hold the slot. -/
theorem C1_deploy_mutual_exclusion (hasActive : Bool) (still : Nat → Bool) :
    (deployGate hasActive still).cancelRequested = hasActive ∧
    ((deployGate hasActive still).result = .ok () →
      hasActive = false ∨ ∃ k, k ≤ 30 ∧ still k = false) ∧
    ((deployGate hasActive still).result =
        .error "Previous deployment could not be cancelled in time. Please try again later." ↔
      hasActive = true ∧ ∀ k, k ≤ 30 → still k = true) := by
  cases hasActive with
  | false =>
    refine ⟨rfl, fun _ => Or.inl rfl, ?_⟩
    simp [deployGate]
  | true =>
    by_cases hg : gateLoop still 0 30 = true
    · refine ⟨by simp [deployGate, hg], ?_, ?_⟩
      · intro hok
        exact absurd hok (by simp [deployGate, hg])
      · constructor
        · intro _
          exact ⟨rfl, fun k hk => gateLoop_eq_true_forall still 0 30 hg k (by omega) (by omega)⟩
        · intro _
          simp [deployGate, hg]
    · have hg' : gateLoop still 0 30 = false := by simpa using hg
      obtain ⟨k, hk1, hk2, hk3⟩ := gateLoop_eq_false still 0 30 hg'
      refine ⟨by simp [deployGate, hg'], fun _ => Or.inr ⟨k, by omega, hk3⟩, ?_⟩
      constructor
      · intro herr
        exact absurd herr (by simp [deployGate, hg'])
      · intro ⟨_, hall⟩
        exact absurd (hall k (by omega)) (by simp [hk3])

/-- Witness for C1 at concrete inputs: with a previous run that releases
the slot after two polls the gate acquires (and a free poll exists); with
a previous run that never releases, the gate raises exactly the
could-not-cancel error. -/
theorem C1_witness :
    ((deployGate true (fun k => decide (k < 2))).result = .ok () ∧
      (true = false ∨ ∃ k, k ≤ 30 ∧ (decide (k < 2)) = false)) ∧
    (deployGate true (fun _ => true)).result =
      .error "Previous deployment could not be cancelled in time. Please try again later." :=
  ⟨⟨rfl, (C1_deploy_mutual_exclusion true (fun k => decide (k < 2))).2.1 rfl⟩,
    ((C1_deploy_mutual_exclusion true (fun _ => true)).2.2).mpr ⟨rfl, fun _ _ => rfl⟩⟩

/-- Claim C2: for every pipeline run (any project, any oracle of remote
outcomes, any cancellation timing) the in-memory active-deploy and
cancellation markers of the unit are cleared when the run ends, on both
the success epilogue and the catch path, and the pipeline driver itself
never lets an error escape — the mutual-exclusion slot is always
released. -/
theorem C2_markers_always_cleared (orc : Orc) (dep : String) (p : Project) :
    (runDeploy orc dep p).active = false ∧
    (runDeploy orc dep p).cancelDeleted = true ∧
    runDeployRes orc dep p = .ok () := by
  obtain ⟨h1, h2, h3, -⟩ := runDeploy_cases orc dep p
  exact ⟨h2, h3, h1⟩

/-- Claim C3: for every DeploymentRecord the sequence of status values
written during one run is strictly increasing in the stage order
`pending < cloning < installing < building < starting < terminal`, where
the terminal statuses `running`, `failed`, `cancelled` share the top rank
— hence failed/cancelled are only ever written after non-terminal
statuses, and no status of any kind is written after a terminal one. -/
theorem C3_status_monotone (orc : Orc) (dep : String) (p : Project) :
    List.Chain' (fun a b => stageRank a < stageRank b) (runDeploy orc dep p).statuses := by
  obtain ⟨-, -, -, mid, hmid, hcase⟩ := runDeploy_cases orc dep p
  have hmid' := hmid.trans (ladderOf_sublist p)
  rcases hcase with ⟨h1, -, -, -⟩ | ⟨c, e, h1, -, -, -⟩
  · rw [h1]
    exact chain_of_trace hmid' (Or.inl rfl)
  · rw [h1]
    apply chain_of_trace hmid'
    cases c with
    | true => simp
    | false => simp

/-- Counterexample to claim C4 as stated: a run cancelled before its first
stage command ends with status `cancelled` and error message exactly
"Cancelled by user" (that much is right), yet a failure-type notification
dispatch (`notificationService` event kind `deployment_failed`) does occur
for that run — the catch path calls `sendNotification(name, "failed", ...)`
unconditionally. -/
theorem C4_counterexample :
    (runDeploy orcCancel "d1" pcW).statuses = ["pending", "cloning", "cancelled"] ∧
    (runDeploy orcCancel "d1" pcW).errorMessage = some "Cancelled by user" ∧
    "deployment_failed" ∈ (runDeploy orcCancel "d1" pcW).extNotifs := by
  refine ⟨by decide, by decide, by decide⟩

/-- Claim C4 (amended): a cancelled run ends with status `cancelled` and
error message exactly "Cancelled by user", and the *in-app* failure
notification is suppressed for cancellation; the external failure-type
dispatch through the notification service still occurs. -/
theorem C4_amended (orc : Orc) (dep : String) (p : Project)
    (h : "cancelled" ∈ (runDeploy orc dep p).statuses) :
    (runDeploy orc dep p).errorMessage = some "Cancelled by user" ∧
    "deploy_failed" ∉ (runDeploy orc dep p).inAppNotifs ∧
    "deployment_failed" ∈ (runDeploy orc dep p).extNotifs := by
  obtain ⟨-, -, -, mid, hmid, hcase⟩ := runDeploy_cases orc dep p
  have hmid' := hmid.trans (ladderOf_sublist p)
  rcases hcase with ⟨h1, h2, h3, h4⟩ | ⟨c, e, h1, h2, h3, h4⟩
  · rw [h1] at h
    simp only [List.mem_cons, List.mem_append, List.mem_singleton, List.not_mem_nil,
      or_false] at h
    rcases h with h | h | h
    · exact absurd h (by decide)
    · have h5 := hmid'.subset h
      simp at h5
    · exact absurd h (by decide)
  · cases c with
    | false =>
      rw [h1] at h
      simp only [List.mem_cons, List.mem_append, List.mem_singleton, List.not_mem_nil,
        or_false] at h
      rcases h with h | h | h
      · exact absurd h (by decide)
      · have h5 := hmid'.subset h
        simp at h5
      · simp at h
    | true =>
      simp only [if_pos rfl] at h2 h3 h4
      refine ⟨by simpa using h2, by simp [h4], by simp [h3]⟩

/-- Witness for C4 (amended) at a concrete cancelled run. -/
theorem C4_witness :
    (runDeploy orcCancel "d1" pcW).errorMessage = some "Cancelled by user" ∧
    "deploy_failed" ∉ (runDeploy orcCancel "d1" pcW).inAppNotifs ∧
    "deployment_failed" ∈ (runDeploy orcCancel "d1" pcW).extNotifs :=
  C4_amended orcCancel "d1" pcW (by decide)

/-- Claim C5: a one-shot `exec` whose attempt fails with the
command-timeout error raises it with zero additional attempts; a first
attempt failing with any other error evicts the pooled connection and is
retried exactly once, the retry's outcome (success or error) being final;
and no call ever makes more than two attempts. -/
theorem C5_exec_retry_policy :
    (∀ a1, sshExec .timeout a1 =
      { result := .error "Command execution timed out", attempts := 1, evicted := false }) ∧
    (∀ m a1, m ≠ "Command execution timed out" →
      sshExec (.execErr m) a1 = { result := attemptResult a1, attempts := 2, evicted := true }) ∧
    (∀ a0 a1, (sshExec a0 a1).attempts ≤ 2) := by
  refine ⟨fun a1 => rfl, fun m a1 hm => by simp [sshExec, attemptResult, hm], fun a0 a1 => ?_⟩
  unfold sshExec
  cases h : attemptResult a0 with
  | ok r => simp
  | error m =>
    by_cases hm : m = "Command execution timed out" <;> simp [hm]

/-- Witness for C5: a broken-pipe failure is retried exactly once against
a fresh connection and the pooled connection is evicted. -/
theorem C5_witness :
    sshExec (.execErr "write EPIPE") (.ok "out" "" (some 0)) =
      { result := attemptResult (.ok "out" "" (some 0)), attempts := 2, evicted := true } :=
  C5_exec_retry_policy.2.1 "write EPIPE" (.ok "out" "" (some 0)) (by decide)

/-- Counterexample to claim C6 as stated: a one-shot `exec` whose
connection establishment fails with an authentication failure does NOT
surface immediately — the session manager evicts the pool entry and makes
a second connection attempt (2 attempts, not 1), and only then surfaces
the connection-failed error. -/
theorem C6_counterexample :
    (sshExec (.connFail "All configured authentication methods failed")
        (.connFail "All configured authentication methods failed")).attempts = 2 ∧
    (sshExec (.connFail "All configured authentication methods failed")
        (.connFail "All configured authentication methods failed")).evicted = true ∧
    (sshExec (.connFail "All configured authentication methods failed")
        (.connFail "All configured authentication methods failed")).result =
      .error "SSH connection failed: All configured authentication methods failed" :=
  ⟨rfl, rfl, rfl⟩

/-- Claim C6 (amended): an authentication or network-level connect failure
surfaces from the session manager as an "SSH connection failed: …" error,
but not immediately: like every non-timeout failure it is retried exactly
once against a fresh connection (the pooled entry having been evicted),
and the retry's outcome is final — only the command-timeout error is
exempt from the retry. -/
theorem C6_amended (m : String) (a1 : AttemptOut) :
    sshExec (.connFail m) a1 =
      { result := attemptResult a1, attempts := 2, evicted := true } := by
  simp [sshExec, attemptResult, connFailMsg_ne_timeout m]

/-- Claim C7 (amended): in the clone-or-pull stage, when the directory
check reports an existing `.git` repository the pipeline issues the
fetch + checkout + pull command for the configured branch and never the
clone command; when it reports no repository, the pipeline issues the
fresh clone command (`rm -rf` of the partial directory followed by
`git clone -b <branch>`, a full — not shallow — clone); besides the
directory check itself, the only other command the stage may issue is the
running-PID marker cleanup. -/
theorem C7_amended (orc : Orc) (p : Project) (st : DeployState) (g : Bool)
    (hc : orc.cancelFrom = none)
    (horc : orc.remote st.step = .res (dirCheckOutput g) "" (some 0)) :
    ∃ rest, (stageClone orc p st).2.commands =
      st.commands ++ (dirCheckCmd p.deployPath ::
        wrappedCmd p.deployPath
          (if g then pullCmd p.deployPath p.branch
           else cloneCmd p.deployPath p.branch p.repoUrl) :: rest) ∧
      (∀ x ∈ rest, x = runningPidCleanupCmd p.deployPath) ∧
      (g = true → wrappedCmd p.deployPath (cloneCmd p.deployPath p.branch p.repoUrl) ∉
        dirCheckCmd p.deployPath ::
          wrappedCmd p.deployPath (pullCmd p.deployPath p.branch) :: rest) := by
  obtain ⟨rest, h1, h2⟩ := stageClone_commands orc p st g hc horc
  refine ⟨rest, h1, fun x hx => (h2 x hx).2, fun hg => ?_⟩
  subst hg
  intro hmem
  rcases List.mem_cons.mp hmem with heq | hmem2
  · exact wrappedClone_ne_dirCheck p.deployPath p.branch p.repoUrl heq
  · rcases List.mem_cons.mp hmem2 with heq | hmem3
    · exact wrappedPull_ne_wrappedClone p.deployPath p.branch p.repoUrl heq.symm
    · obtain ⟨hdp, hx⟩ := h2 _ hmem3
      exact wrappedClone_ne_cleanup p.deployPath p.branch p.repoUrl p.deployPath hdp hx

/-- Counterexample to the "shallow" part of claim C7: on a deploy path
with no `.git` directory the pipeline issues the fresh clone command, and
that command is not a shallow clone — it passes no `--depth` option. -/
theorem C7_counterexample :
    wrappedCmd pcW.deployPath (cloneCmd pcW.deployPath pcW.branch pcW.repoUrl) ∈
      (stageClone orcNewRepo pcW initState).2.commands ∧
    isShallowClone (cloneCmd pcW.deployPath pcW.branch pcW.repoUrl) = false ∧
    isShallowClone
      (wrappedCmd pcW.deployPath (cloneCmd pcW.deployPath pcW.branch pcW.repoUrl)) = false := by
  refine ⟨by decide, by decide, by decide⟩

/-- Witness for C7 (amended) at concrete inputs (repository absent). -/
theorem C7_witness :
    ∃ rest, (stageClone orcNewRepo pcW initState).2.commands =
      initState.commands ++ (dirCheckCmd pcW.deployPath ::
        wrappedCmd pcW.deployPath
          (if false then pullCmd pcW.deployPath pcW.branch
           else cloneCmd pcW.deployPath pcW.branch pcW.repoUrl) :: rest) ∧
      (∀ x ∈ rest, x = runningPidCleanupCmd pcW.deployPath) ∧
      (false = true → wrappedCmd pcW.deployPath
          (cloneCmd pcW.deployPath pcW.branch pcW.repoUrl) ∉
        dirCheckCmd pcW.deployPath ::
          wrappedCmd pcW.deployPath (pullCmd pcW.deployPath pcW.branch) :: rest) :=
  C7_amended orcNewRepo pcW initState false rfl rfl

/-- Claim C8: a unit with empty install and build commands yields a status
sequence that never contains `installing` or `building` (the stages are
skipped entirely); and a stage command that exits non-zero fails with an
error recording exactly the offending command and its exit code. -/
theorem C8_stage_skip_and_exit_codes :
    (∀ (orc : Orc) (dep : String) (p : Project),
      p.installCommand = "" → p.buildCommand = "" →
      "installing" ∉ (runDeploy orc dep p).statuses ∧
      "building" ∉ (runDeploy orc dep p).statuses) ∧
    (∀ (orc : Orc) (p : Project) (cmd : String) (st : DeployState) (o e : String) (c : Int),
      orc.cancelFrom = none → orc.remote st.step = .res o e (some c) → c ≠ 0 →
      (execWithLogsM orc p cmd st).1 =
        .error ("Command failed with exit code " ++ toString c ++ ": " ++ cmd)) := by
  constructor
  · intro orc dep p hI hB
    constructor
    · intro hmem
      rcases runDeploy_statuses_mem orc dep p _ hmem with h | h | h | h | h
      · exact absurd h (by decide)
      · simp [ladderOf, hI, hB] at h
      · exact absurd h (by decide)
      · exact absurd h (by decide)
      · exact absurd h (by decide)
    · intro hmem
      rcases runDeploy_statuses_mem orc dep p _ hmem with h | h | h | h | h
      · exact absurd h (by decide)
      · simp [ladderOf, hI, hB] at h
      · exact absurd h (by decide)
      · exact absurd h (by decide)
      · exact absurd h (by decide)
  · exact fun orc p cmd st o e c hc horc hne =>
      execWithLogsM_exit_nonzero orc p cmd st o e c hc horc hne

/-- Witness for C8 at concrete inputs: a project with empty install/build
commands never writes `installing`/`building`, and a stage whose command
exits 3 fails recording the command and exit code 3. -/
theorem C8_witness :
    ("installing" ∉ (runDeploy orcOkW "d1" pcSkip).statuses ∧
      "building" ∉ (runDeploy orcOkW "d1" pcSkip).statuses) ∧
    (execWithLogsM orcExit3 pcW "npm run build" initState).1 =
      .error ("Command failed with exit code " ++ toString (3 : Int) ++ ": npm run build") :=
  ⟨C8_stage_skip_and_exit_codes.1 orcOkW "d1" pcSkip rfl rfl,
    C8_stage_skip_and_exit_codes.2 orcExit3 pcW "npm run build" initState "" "" 3 rfl rfl
      (by decide)⟩

/-- Claim C9: `stop` on an existing unit is best-effort and never raises —
whatever the configured stop command, the process-manager teardown or the
PID-file kill do (all their failures are swallowed by the surrounding
try), the operation completes normally and sets the unit's status to
`stopped`. -/
theorem C9_stop_best_effort (orc : Orc) (p : Project) (st : DeployState) :
    (stopService orc (some p) st).1 = .ok () ∧
    (stopService orc (some p) st).2.projectStatus = some "stopped" :=
  stopService_spec orc p st

/-- Claim C10: when a remote command's channel closes without a numeric
exit code (e.g. the remote process was killed by a signal), the one-shot
execute reports exit code 0 (`code || 0`), the streaming execute delivers
0 to its close callback, and consequently `execWithLogs` treats such a
stage as successful (no command-failed error) when cancellation is not
flagged. -/
theorem C10_missing_exit_code_zero :
    (∀ o e, attemptResult (.ok o e none) =
      .ok { stdout := strTrim o, stderr := strTrim e, code := 0 }) ∧
    streamCloseCode none = 0 ∧
    (∀ (orc : Orc) (p : Project) (cmd : String) (st : DeployState) (o e : String),
      orc.cancelFrom = none → orc.remote st.step = .res o e none →
      (execWithLogsM orc p cmd st).1 = .ok ()) :=
  ⟨fun _ _ => rfl, rfl,
    fun orc p cmd st o e hc horc => execWithLogsM_ok_nocode orc p cmd st o e hc horc⟩

/-- Witness for C10: a stage whose wrapped command is killed by a signal
(channel closes with no exit code) is treated as successful. -/
theorem C10_witness :
    (execWithLogsM orcSignal pcW "node app.js" initState).1 = .ok () :=
  C10_missing_exit_code_zero.2.2 orcSignal pcW "node app.js" initState "" "" rfl rfl

end Pulse
